import Mathlib

/-!
Verification of the eTuitionBD server core logic (src/index.js).

The document store is modelled shallowly: a document is an association list
from field names to values, a collection is a list of records (an object id
paired with a document), and the four collections form the database state.
Each HTTP route handler relevant to the claims is translated into a pure
function from its request data and the database to a response value and the
updated database.  MongoDB updateOne updates the first matching record and
reports matched and modified counts (modified only when the stored document
actually changed); updateMany updates every matching record.
-/

/-- A BSON-ish value stored in a document field.  JSON strings and numbers
cover every field the claims touch; `time` stands for a Date value and
`null` for a JS undefined serialized by the driver. -/
inductive Val where
  | null : Val
  | str : String → Val
  | int : Int → Val
  | time : Nat → Val
deriving DecidableEq, Repr

/-- A document: an association list of field names to values. -/
abbrev Doc := List (String × Val)

/-- Read a field of a document (first occurrence). -/
def getF : Doc → String → Option Val
  | [], _ => none
  | q :: d, k => if q.1 = k then some q.2 else getF d k

/-- Write a field of a document: replace the value where the key is present,
append the pair otherwise (JS object update / MongoDB set semantics). -/
def setF (d : Doc) (k : String) (v : Val) : Doc :=
  if (getF d k).isSome
  then d.map (fun q => if q.1 = k then (k, v) else q)
  else d ++ [(k, v)]

/-- Remove a field of a document (JS delete / destructuring-rest). -/
def delF : Doc → String → Doc
  | [], _ => []
  | q :: d, k => if q.1 = k then delF d k else q :: delF d k

/-- Apply a list of field writes in order (MongoDB set with an update doc,
JS object spread). -/
def setMany (d : Doc) (u : Doc) : Doc :=
  u.foldl (fun a q => setF a q.1 q.2) d

/-- JS truthiness of a field value. -/
def truthy : Val → Bool
  | Val.null => false
  | Val.str s => s ≠ ""
  | Val.int n => n ≠ 0
  | Val.time _ => true

/-- JS `a or-else b` on an optional field value: the default wins when the
field is absent or falsy. -/
def orDefault (v : Option Val) (dflt : Val) : Val :=
  match v with
  | some w => if truthy w then w else dflt
  | none => dflt

/-- JS toLowerCase, modelled character by character (the emails involved
are ASCII). -/
def lowerStr (s : String) : String := String.mk (s.data.map Char.toLower)

/-- A stored record: its object id (hex string) and its document. -/
structure Rec where
  id : String
  doc : Doc
deriving DecidableEq, Repr

/-- Result counts reported by a MongoDB update. -/
structure UpdRes where
  matched : Nat
  modified : Nat
deriving DecidableEq, Repr

/-- updateOne: set the given fields on the first record matching the filter.
The modified count is 0 when the stored document is unchanged by the write. -/
def updateOne : List Rec → (Rec → Bool) → Doc → List Rec × UpdRes
  | [], _, _ => ([], ⟨0, 0⟩)
  | r :: rs, p, u =>
    if p r then
      (⟨r.id, setMany r.doc u⟩ :: rs, ⟨1, if setMany r.doc u = r.doc then 0 else 1⟩)
    else
      (r :: (updateOne rs p u).1, (updateOne rs p u).2)

/-- updateMany: set the given fields on every record matching the filter. -/
def updateMany (c : List Rec) (p : Rec → Bool) (u : Doc) : List Rec × UpdRes :=
  (c.map (fun r => if p r then ⟨r.id, setMany r.doc u⟩ else r),
   ⟨(c.filter p).length,
    ((c.filter p).filter (fun r => setMany r.doc u ≠ r.doc)).length⟩)

/-- The four collections of the eTuitionBD database. -/
structure DB where
  users : List Rec
  tuitions : List Rec
  applications : List Rec
  payments : List Rec
deriving DecidableEq, Repr

/-- The request context produced by the token middleware: the id, stored
email and role of the caller user record, and the verified token email. -/
structure AuthUser where
  uid : String
  email : String
  role : String
  decodedEmail : String
deriving DecidableEq, Repr

/-- A store operation issued by a handler, recorded in issue order. -/
inductive StoreOp where
  | findOneOp (coll : String)
  | insertOneOp (coll : String)
  | updateOneOp (coll : String)
  | updateManyOp (coll : String)
  | deleteOneOp (coll : String)
deriving DecidableEq, Repr

/-- Hex digit test for object id strings. -/
def hexDigit (c : Char) : Bool :=
  c.isDigit || (('a' ≤ c) && (c ≤ 'f')) || (('A' ≤ c) && (c ≤ 'F'))

/-- A string accepted by the driver ObjectId constructor: 24 hex characters.
Any other string makes the constructor raise. -/
def isValidOid (s : String) : Bool :=
  s.length = 24 && s.toList.all hexDigit

/-- Outcome of POST /users (registration). -/
inductive PostUsersRes where
  | emailRequired
  | alreadyExists
  | created (id : String)
  | serverError
deriving DecidableEq, Repr

/-- POST /users: register a user.  The email is lowercased; when a user with
that email already exists no record is inserted and the response reports
"User already exists" with insertedId null (modelled by `alreadyExists`).
Otherwise a new user document is built and inserted. -/
def postUsers (body : Doc) (now : Nat) (freshId : String) (db : DB) :
    PostUsersRes × DB :=
  match getF body "email" with
  | some (Val.str e) =>
    if e = "" then (PostUsersRes.emailRequired, db)
    else
      let email := lowerStr e
      if (db.users.find? (fun r => decide (getF r.doc "email" = some (Val.str email)))).isSome
      then (PostUsersRes.alreadyExists, db)
      else
        let newUser : Doc :=
          [("displayName", (getF body "displayName").getD Val.null),
           ("email", Val.str email),
           ("photoURL", (getF body "photoURL").getD Val.null),
           ("role", orDefault (getF body "role") (Val.str "student")),
           ("phone", orDefault (getF body "phone") (Val.str "Not Provided")),
           ("status", if getF body "role" = some (Val.str "tutor")
                      then Val.str "pending" else Val.str "active"),
           ("createdAt", Val.time now)]
        (PostUsersRes.created freshId,
         { db with users := db.users ++ [⟨freshId, newUser⟩] })
  | some v =>
    -- a non-string email: the truthiness guard passes but toLowerCase raises
    if truthy v then (PostUsersRes.serverError, db)
    else (PostUsersRes.emailRequired, db)
  | none => (PostUsersRes.emailRequired, db)

/-- Outcome of PATCH /users/:id (admin update of a user). -/
inductive AdminUserUpdateRes where
  | forbidden
  | ok (r : UpdRes)
  | serverError
deriving DecidableEq, Repr

/-- PATCH /users/:id: admin-only update.  The id, email and createdAt keys
are stripped from the body by destructuring; the rest is set together with a
fresh updatedAt. -/
def adminUserUpdate (u : AuthUser) (userId : String) (body : Doc) (now : Nat)
    (db : DB) : AdminUserUpdateRes × DB :=
  if u.role = "admin" then
    if isValidOid userId then
      let fieldsToUpdate := delF (delF (delF body "_id") "email") "createdAt"
      let upd := setF fieldsToUpdate "updatedAt" (Val.time now)
      let p := updateOne db.users (fun r => decide (r.id = userId)) upd
      (AdminUserUpdateRes.ok p.2, { db with users := p.1 })
    else (AdminUserUpdateRes.serverError, db)
  else (AdminUserUpdateRes.forbidden, db)

/-- Outcome of PATCH /users/profile/update. -/
inductive ProfileUpdateRes where
  | ok (r : UpdRes)
  | serverError
deriving DecidableEq, Repr

/-- PATCH /users/profile/update: the caller updates their own record.  The
handler always sets displayName, the lowercased body email, photoURL and a
fresh updatedAt; an absent body field is serialized as null and a missing or
non-string email makes toLowerCase raise (the catch branch). -/
def profileUpdate (u : AuthUser) (body : Doc) (now : Nat) (db : DB) :
    ProfileUpdateRes × DB :=
  match getF body "email" with
  | some (Val.str e) =>
    let upd : Doc :=
      [("displayName", (getF body "displayName").getD Val.null),
       ("email", Val.str (lowerStr e)),
       ("photoURL", (getF body "photoURL").getD Val.null),
       ("updatedAt", Val.time now)]
    let p := updateOne db.users (fun r => decide (r.id = u.uid)) upd
    (ProfileUpdateRes.ok p.2, { db with users := p.1 })
  | _ => (ProfileUpdateRes.serverError, db)

/-- Outcome of PATCH /tuitions/:id. -/
inductive PatchTuitionRes where
  | notFound
  | invalidAdminStatus
  | forbidden
  | ok (r : UpdRes)
  | serverError
deriving DecidableEq, Repr

/-- PATCH /tuitions/:id.  The body status key is split off; the remaining
fields plus a fresh updatedAt form the update.  An admin may set status to
approved or rejected, any other truthy status is a 400, a falsy one is
dropped; the creator gets status forced to pending with the email and
createdAt keys deleted; anyone else is forbidden.  The handler has no
ObjectId.isValid guard, so a malformed id raises in the ObjectId constructor
before any store call and lands in the catch branch (500). -/
def patchTuition (u : AuthUser) (tuitionId : String) (body : Doc)
    (now : String) (db : DB) : PatchTuitionRes × DB × List StoreOp :=
  if isValidOid tuitionId then
    match db.tuitions.find? (fun r => decide (r.id = tuitionId)) with
    | none => (PatchTuitionRes.notFound, db, [StoreOp.findOneOp "tuitions"])
    | some existing =>
      let updateFields := setF (delF body "status") "updatedAt" (Val.str now)
      let decided : PatchTuitionRes ⊕ Doc :=
        if u.role = "admin" then
          match getF body "status" with
          | some s =>
            if s = Val.str "approved" ∨ s = Val.str "rejected" then
              Sum.inr (setF updateFields "status" s)
            else if truthy s then Sum.inl PatchTuitionRes.invalidAdminStatus
            else Sum.inr updateFields
          | none => Sum.inr updateFields
        else if getF existing.doc "email" = some (Val.str u.email) then
          Sum.inr (delF (delF (setF updateFields "status" (Val.str "pending"))
            "email") "createdAt")
        else Sum.inl PatchTuitionRes.forbidden
      match decided with
      | Sum.inl r => (r, db, [StoreOp.findOneOp "tuitions"])
      | Sum.inr uf =>
        let p := updateOne db.tuitions (fun r => decide (r.id = tuitionId)) uf
        (PatchTuitionRes.ok p.2, { db with tuitions := p.1 },
         [StoreOp.findOneOp "tuitions", StoreOp.updateOneOp "tuitions"])
  else (PatchTuitionRes.serverError, db, [])

/-- Outcome of PATCH /applications/reject/:id. -/
inductive RejectAppRes where
  | notFoundOrUnauthorized
  | ok (r : UpdRes)
  | serverError
deriving DecidableEq, Repr

/-- PATCH /applications/reject/:id: the update filter requires both the
application id and that the stored studentEmail equals the verified caller
email; when the update modifies nothing the handler reports 404. -/
def rejectApplication (u : AuthUser) (appId : String) (db : DB) :
    RejectAppRes × DB :=
  if isValidOid appId then
    let p := updateOne db.applications
      (fun r => decide (r.id = appId ∧
        getF r.doc "studentEmail" = some (Val.str u.decodedEmail)))
      [("status", Val.str "rejected")]
    if p.2.modified = 0 then
      (RejectAppRes.notFoundOrUnauthorized, { db with applications := p.1 })
    else (RejectAppRes.ok p.2, { db with applications := p.1 })
  else (RejectAppRes.serverError, db)

/-- Outcome of POST /payments. -/
inductive PostPaymentsRes where
  | success
  | serverError
deriving DecidableEq, Repr

/-- The payment document inserted by POST /payments: the request body with
the current date and a paid paymentStatus spread on top. -/
def paymentDocOf (body : Doc) (now : Nat) : Doc :=
  setF (setF body "date" (Val.time now)) "paymentStatus" (Val.str "paid")

/-- POST /payments, the hiring workflow: insert the payment record with a
paid status, mark the referenced application accepted, mark every other
application of the same tuition rejected, and mark the tuition confirmed.
The caller identity is never consulted after authentication.  A missing or
malformed id makes the ObjectId constructor raise at its use site, so the
writes already issued stay and the catch branch answers 500. -/
def postPayments (u : AuthUser) (body : Doc) (now : Nat) (freshId : String)
    (db : DB) : PostPaymentsRes × DB × List StoreOp :=
  let db1 : DB :=
    { db with payments := db.payments ++ [⟨freshId, paymentDocOf body now⟩] }
  match getF body "applicationId" with
  | some (Val.str appId) =>
    if isValidOid appId then
      let s2 := updateOne db1.applications (fun r => decide (r.id = appId))
        [("status", Val.str "accepted")]
      let db2 : DB := { db1 with applications := s2.1 }
      let tv := getF body "tuitionId"
      let s3 := updateMany db2.applications
        (fun r => decide (getF r.doc "tuitionId" = tv ∧ r.id ≠ appId))
        [("status", Val.str "rejected")]
      let db3 : DB := { db2 with applications := s3.1 }
      match tv with
      | some (Val.str tid) =>
        if isValidOid tid then
          let s4 := updateOne db3.tuitions (fun r => decide (r.id = tid))
            [("status", Val.str "confirmed")]
          (PostPaymentsRes.success, { db3 with tuitions := s4.1 },
           [StoreOp.insertOneOp "payments", StoreOp.updateOneOp "applications",
            StoreOp.updateManyOp "applications", StoreOp.updateOneOp "tuitions"])
        else
          (PostPaymentsRes.serverError, db3,
           [StoreOp.insertOneOp "payments", StoreOp.updateOneOp "applications",
            StoreOp.updateManyOp "applications"])
      | _ =>
        (PostPaymentsRes.serverError, db3,
         [StoreOp.insertOneOp "payments", StoreOp.updateOneOp "applications",
          StoreOp.updateManyOp "applications"])
    else (PostPaymentsRes.serverError, db1, [StoreOp.insertOneOp "payments"])
  | _ => (PostPaymentsRes.serverError, db1, [StoreOp.insertOneOp "payments"])

/-- Outcome of POST /create-payment-intent: either the missing-salary 400 or
a charge request sent to the processor with the computed minor-unit amount. -/
inductive IntentRes where
  | salaryRequired
  | charged (amountMinor : Int)
deriving DecidableEq, Repr

/-- JS Math.round: nearest integer, half rounded up. -/
def jsRound (x : ℚ) : Int := ⌊x + 1 / 2⌋

/-- POST /create-payment-intent: a missing or zero (falsy) salary is refused
before the processor is contacted; otherwise the amount sent to the
processor is the salary times 100 rounded with Math.round. -/
def createPaymentIntent (salary : Option ℚ) : IntentRes :=
  match salary with
  | none => IntentRes.salaryRequired
  | some s =>
    if s = 0 then IntentRes.salaryRequired
    else IntentRes.charged (jsRound (s * 100))

/-- Frame relation: the two collection snapshots agree record by record on
the ids and on the named field. -/
def fieldPreserved (k : String) (old new : List Rec) : Prop :=
  List.Forall₂ (fun r r' => r.id = r'.id ∧ getF r'.doc k = getF r.doc k)
    old new

/-! ### Concrete example data used by witnesses and counterexamples -/

def oidA : String := "aaaaaaaaaaaaaaaaaaaaaaaa"

def oidB : String := "bbbbbbbbbbbbbbbbbbbbbbbb"

def oidT : String := "cccccccccccccccccccccccc"

def oidU : String := "dddddddddddddddddddddddd"

/-- A tuition created by stu@example.com, already approved. -/
def exTuition : Rec :=
  ⟨oidT, [("email", Val.str "stu@example.com"),
          ("status", Val.str "approved"), ("createdAt", Val.time 5)]⟩

/-- Application of tutor t1 on the example tuition. -/
def exApp1 : Rec :=
  ⟨oidA, [("tuitionId", Val.str oidT),
          ("tutorEmail", Val.str "t1@example.com"),
          ("studentEmail", Val.str "stu@example.com"),
          ("status", Val.str "applied")]⟩

/-- Application of tutor t2 on the example tuition. -/
def exApp2 : Rec :=
  ⟨oidB, [("tuitionId", Val.str oidT),
          ("tutorEmail", Val.str "t2@example.com"),
          ("studentEmail", Val.str "stu@example.com"),
          ("status", Val.str "applied")]⟩

/-- Stored user record of the example student. -/
def exUserRec : Rec :=
  ⟨oidU, [("email", Val.str "stu@example.com"),
          ("role", Val.str "student"), ("createdAt", Val.time 1)]⟩

def exDb : DB :=
  { users := [exUserRec], tuitions := [exTuition],
    applications := [exApp1, exApp2], payments := [] }

def exAdmin : AuthUser :=
  ⟨oidU, "admin@example.com", "admin", "admin@example.com"⟩

def exStudent : AuthUser :=
  ⟨oidU, "stu@example.com", "student", "stu@example.com"⟩

def exOther : AuthUser :=
  ⟨oidU, "other@example.com", "student", "other@example.com"⟩

def exTutor1 : AuthUser :=
  ⟨oidU, "t1@example.com", "tutor", "t1@example.com"⟩

/-- Payment payload referencing the first example application. -/
def exPayBody : Doc :=
  [("applicationId", Val.str oidA), ("tuitionId", Val.str oidT),
   ("amount", Val.int 100), ("tutorEmail", Val.str "t1@example.com"),
   ("studentEmail", Val.str "stu@example.com")]

/-! ### Document field lemmas -/

/-- Reading a key that is absent from the prefix skips the prefix. -/
theorem getF_append_of_none (d d2 : Doc) (k : String) (h : getF d k = none) :
    getF (d ++ d2) k = getF d2 k := by
  induction d with
  | nil => simp
  | cons q d ih =>
    by_cases hq : q.1 = k
    · simp [getF, hq] at h
    · simp only [getF, hq, if_false, List.cons_append, if_neg hq] at h ⊢
      exact ih h

/-- The replace pass of setF yields the new value at the written key. -/
theorem getF_map_set (d : Doc) (k : String) (v : Val)
    (h : (getF d k).isSome) :
    getF (d.map (fun q => if q.1 = k then (k, v) else q)) k = some v := by
  induction d with
  | nil => simp [getF] at h
  | cons q d ih =>
    by_cases hq : q.1 = k
    · simp [getF, hq]
    · simp only [getF, hq, if_false, List.map_cons, if_neg hq] at h ⊢
      exact ih h

/-- The replace pass of setF leaves other keys unread. -/
theorem getF_map_set_ne (d : Doc) (k k' : String) (v : Val) (h : k' ≠ k) :
    getF (d.map (fun q => if q.1 = k then (k, v) else q)) k' = getF d k' := by
  induction d with
  | nil => rfl
  | cons q d ih =>
    by_cases hq : q.1 = k
    · simp [getF, hq, Ne.symm h, ih]
    · simp [getF, hq, ih]

/-- Appending a pair with a different key leaves a key unread. -/
theorem getF_append_single_ne (d : Doc) (k k' : String) (v : Val)
    (h : k' ≠ k) : getF (d ++ [(k, v)]) k' = getF d k' := by
  induction d with
  | nil => simp [getF, Ne.symm h]
  | cons q d ih =>
    by_cases hq : q.1 = k'
    · simp [getF, hq]
    · simp [getF, hq, ih]

/-- Reading the key just written by setF gives the written value. -/
theorem getF_setF_self (d : Doc) (k : String) (v : Val) :
    getF (setF d k v) k = some v := by
  unfold setF
  by_cases h : (getF d k).isSome
  · simp only [h, if_true]
    exact getF_map_set d k v h
  · simp only [h, Bool.false_eq_true, if_false]
    rw [getF_append_of_none d [(k, v)] k (Option.not_isSome_iff_eq_none.mp h)]
    simp [getF]

/-- setF leaves every other key unchanged. -/
theorem getF_setF_ne (d : Doc) (k k' : String) (v : Val) (h : k' ≠ k) :
    getF (setF d k v) k' = getF d k' := by
  unfold setF
  by_cases hs : (getF d k).isSome
  · simp only [hs, if_true]
    exact getF_map_set_ne d k k' v h
  · simp only [hs, Bool.false_eq_true, if_false]
    exact getF_append_single_ne d k k' v h

/-- delF leaves every other key unchanged. -/
theorem getF_delF_ne (d : Doc) (k k' : String) (h : k' ≠ k) :
    getF (delF d k) k' = getF d k' := by
  induction d with
  | nil => rfl
  | cons q d ih =>
    by_cases hq : q.1 = k
    · simp [delF, getF, hq, Ne.symm h, ih]
    · by_cases hq' : q.1 = k'
      · simp [delF, getF, hq, hq', h]
      · simp [delF, getF, hq, hq', ih]

/-- The key removed by delF reads as absent. -/
theorem getF_delF_self (d : Doc) (k : String) : getF (delF d k) k = none := by
  induction d with
  | nil => rfl
  | cons q d ih =>
    by_cases hq : q.1 = k
    · simp [delF, hq, ih]
    · simp [delF, getF, hq, ih]

/-- setMany over writes that avoid a key leaves that key unchanged. -/
theorem getF_setMany_not_mem (u d : Doc) (k : String)
    (h : ∀ q ∈ u, q.1 ≠ k) : getF (setMany d u) k = getF d k := by
  induction u generalizing d with
  | nil => rfl
  | cons q u ih =>
    have hq : q.1 ≠ k := h q (List.mem_cons_self q u)
    show getF (setMany (setF d q.1 q.2) u) k = getF d k
    rw [ih (setF d q.1 q.2) (fun p hp => h p (List.mem_cons_of_mem q hp))]
    exact getF_setF_ne d q.1 k q.2 (Ne.symm hq)

/-- setMany over writes that all agree on a value for a present key makes
the key read that value. -/
theorem getF_setMany_forall (u : Doc) (d : Doc) (k : String) (v : Val)
    (hall : ∀ q ∈ u, q.1 = k → q.2 = v) (hex : ∃ q ∈ u, q.1 = k) :
    getF (setMany d u) k = some v := by
  induction u generalizing d with
  | nil =>
    obtain ⟨q, hq, _⟩ := hex
    exact absurd hq (List.not_mem_nil q)
  | cons q u ih =>
    by_cases hq : q.1 = k
    · by_cases hrest : ∃ p ∈ u, p.1 = k
      · exact ih (setF d q.1 q.2) (fun p hp => hall p (List.mem_cons_of_mem q hp)) hrest
      · have hnone : ∀ p ∈ u, p.1 ≠ k := fun p hp hpk => hrest ⟨p, hp, hpk⟩
        have hv : q.2 = v := hall q (List.mem_cons_self q u) hq
        show getF (setMany (setF d q.1 q.2) u) k = some v
        rw [getF_setMany_not_mem u (setF d q.1 q.2) k hnone, hq, hv,
          getF_setF_self]
    · obtain ⟨p, hp, hpk⟩ := hex
      have hpu : p ∈ u := by
        rcases List.mem_cons.mp hp with h1 | h1
        · exact absurd hpk (h1 ▸ hq)
        · exact h1
      exact ih (setF d q.1 q.2) (fun p' hp' => hall p' (List.mem_cons_of_mem q hp'))
        ⟨p, hpu, hpk⟩

/-- A pair present in a document makes its key readable. -/
theorem getF_isSome_of_mem (d : Doc) (q : String × Val) (h : q ∈ d) :
    (getF d q.1).isSome := by
  induction d with
  | nil => cases h
  | cons p d ih =>
    by_cases hp : p.1 = q.1
    · simp [getF, hp]
    · rcases List.mem_cons.mp h with h1 | h1
      · exact absurd rfl (h1 ▸ hp)
      · simp only [getF, hp, Bool.false_eq_true, if_neg hp]
        exact ih h1

/-- A readable key is witnessed by a pair of the document. -/
theorem exists_key_of_isSome (d : Doc) (k : String)
    (h : (getF d k).isSome) : ∃ p ∈ d, p.1 = k := by
  induction d with
  | nil => simp [getF] at h
  | cons q d ih =>
    by_cases hq : q.1 = k
    · exact ⟨q, List.mem_cons_self q d, hq⟩
    · simp only [getF, hq, Bool.false_eq_true, if_neg hq] at h
      obtain ⟨p, hp, hpk⟩ := ih h
      exact ⟨p, List.mem_cons_of_mem q hp, hpk⟩

/-- Every pair of setF at the written key carries the written value. -/
theorem setF_forall_key (d : Doc) (k : String) (v : Val) :
    ∀ q ∈ setF d k v, q.1 = k → q.2 = v := by
  intro q hq hk
  unfold setF at hq
  by_cases hs : (getF d k).isSome
  · simp only [hs, if_true] at hq
    obtain ⟨p, hp, hpe⟩ := List.mem_map.mp hq
    by_cases hpk : p.1 = k
    · rw [← hpe]; simp [hpk]
    · rw [← hpe] at hk
      simp only [hpk, Bool.false_eq_true, if_neg hpk] at hk
      exact absurd hk hpk
  · simp only [hs, Bool.false_eq_true, if_false] at hq
    rcases List.mem_append.mp hq with h1 | h1
    · have := getF_isSome_of_mem d q h1
      rw [hk] at this
      exact absurd this (by simpa using hs)
    · simp only [List.mem_singleton] at h1
      rw [h1]

/-- The written pair belongs to setF. -/
theorem mem_setF_self (d : Doc) (k : String) (v : Val) :
    (k, v) ∈ setF d k v := by
  unfold setF
  by_cases hs : (getF d k).isSome
  · simp only [hs, if_true]
    obtain ⟨p, hp, hpk⟩ := exists_key_of_isSome d k hs
    exact List.mem_map.mpr ⟨p, hp, by simp [hpk]⟩
  · simp [hs]

/-- A pair of setF either carries the written key or comes from the
original document. -/
theorem mem_setF (d : Doc) (k : String) (v : Val) (q : String × Val)
    (h : q ∈ setF d k v) : q.1 = k ∨ q ∈ d := by
  unfold setF at h
  by_cases hs : (getF d k).isSome
  · simp only [hs, if_true] at h
    obtain ⟨p, hp, hpe⟩ := List.mem_map.mp h
    by_cases hpk : p.1 = k
    · left; rw [← hpe]; simp [hpk]
    · right; rw [← hpe]; simpa [hpk] using hp
  · simp only [hs, Bool.false_eq_true, if_false] at h
    rcases List.mem_append.mp h with h1 | h1
    · exact Or.inr h1
    · left
      simp only [List.mem_singleton] at h1
      rw [h1]

/-- A pair of delF comes from the original document and avoids the removed
key. -/
theorem mem_delF (d : Doc) (k : String) (q : String × Val)
    (h : q ∈ delF d k) : q ∈ d ∧ q.1 ≠ k := by
  induction d with
  | nil => cases h
  | cons p d ih =>
    by_cases hp : p.1 = k
    · simp only [delF, hp, if_pos hp] at h
      obtain ⟨h1, h2⟩ := ih h
      exact ⟨List.mem_cons_of_mem p h1, h2⟩
    · simp only [delF, hp, if_neg hp] at h
      rcases List.mem_cons.mp h with h1 | h1
      · exact ⟨h1 ▸ List.mem_cons_self p d, h1 ▸ hp⟩
      · obtain ⟨h2, h3⟩ := ih h1
        exact ⟨List.mem_cons_of_mem p h2, h3⟩

/-- A pair avoiding the removed key survives delF. -/
theorem mem_delF_of_mem (d : Doc) (k : String) (q : String × Val)
    (h : q ∈ d) (hk : q.1 ≠ k) : q ∈ delF d k := by
  induction d with
  | nil => cases h
  | cons p d ih =>
    by_cases hp : p.1 = k
    · simp only [delF, if_pos hp]
      rcases List.mem_cons.mp h with h1 | h1
      · exact absurd (h1 ▸ hp) hk
      · exact ih h1
    · simp only [delF, if_neg hp]
      rcases List.mem_cons.mp h with h1 | h1
      · exact List.mem_cons.mpr (Or.inl h1)
      · exact List.mem_cons_of_mem p (ih h1)

/-! ### Collection update lemmas -/

/-- With no matching record, updateOne is a no-op reporting zero counts. -/
theorem updateOne_nomatch (c : List Rec) (p : Rec → Bool) (u : Doc)
    (h : ∀ r ∈ c, p r = false) : updateOne c p u = (c, ⟨0, 0⟩) := by
  induction c with
  | nil => rfl
  | cons r rs ih =>
    have hr := h r (List.mem_cons_self r rs)
    have ihr := ih (fun x hx => h x (List.mem_cons_of_mem r hx))
    simp [updateOne, hr, ihr]

/-- When at most one record matches, updateOne acts like a pointwise map. -/
theorem updateOne_eq_map (c : List Rec) (p : Rec → Bool) (u : Doc)
    (h : (c.filter p).length ≤ 1) :
    (updateOne c p u).1 =
      c.map (fun r => if p r then Rec.mk r.id (setMany r.doc u) else r) := by
  induction c with
  | nil => rfl
  | cons r rs ih =>
    by_cases hr : p r
    · have hlen : (rs.filter p).length = 0 := by
        simp only [List.filter_cons, hr, if_pos] at h
        simpa using h
      have hnone : ∀ x ∈ rs, p x = false := by
        intro x hx
        have hnil := List.length_eq_zero.mp hlen
        have := List.filter_eq_nil.mp hnil x hx
        simpa using this
      have hmap : rs.map
          (fun x => if p x then Rec.mk x.id (setMany x.doc u) else x) = rs := by
        calc rs.map (fun x => if p x then Rec.mk x.id (setMany x.doc u) else x)
            = rs.map id := List.map_congr_left (fun x hx => by simp [hnone x hx])
          _ = rs := List.map_id rs
      simp [updateOne, hr, hmap]
    · have hrest : (rs.filter p).length ≤ 1 := by
        simpa [List.filter_cons, hr] using h
      simp [updateOne, hr, ih hrest]

/-- When the unique matching record exists and the write changes its
document, updateOne reports one matched and one modified record. -/
theorem updateOne_found (c : List Rec) (p : Rec → Bool) (u : Doc) (r : Rec)
    (hr : r ∈ c) (hp : p r = true) (hle : (c.filter p).length ≤ 1)
    (hch : setMany r.doc u ≠ r.doc) :
    (updateOne c p u).2 = ⟨1, 1⟩ := by
  induction c with
  | nil => cases hr
  | cons x xs ih =>
    by_cases hx : p x
    · have hlen : (xs.filter p).length = 0 := by
        simp only [List.filter_cons, hx, if_pos] at hle
        simpa using hle
      have hnone : ∀ y ∈ xs, p y = false := by
        intro y hy
        have hnil := List.length_eq_zero.mp hlen
        have := List.filter_eq_nil.mp hnil y hy
        simpa using this
      have hrx : r = x := by
        rcases List.mem_cons.mp hr with h1 | h1
        · exact h1
        · rw [hnone r h1] at hp; cases hp
      subst hrx
      simp [updateOne, hx, hch]
    · have hrxs : r ∈ xs := by
        rcases List.mem_cons.mp hr with h1 | h1
        · rw [h1] at hp; rw [hp] at hx; cases hx rfl
        · exact h1
      have hrest : (xs.filter p).length ≤ 1 := by
        simpa [List.filter_cons, hx] using hle
      simp [updateOne, hx, ih hrxs hrest]

/-- In a collection with pairwise distinct ids, at most one record carries a
given id. -/
theorem filter_id_len_le_one (c : List Rec) (t : String)
    (hnd : (c.map Rec.id).Nodup) :
    (c.filter (fun r => decide (r.id = t))).length ≤ 1 := by
  induction c with
  | nil => simp
  | cons x xs ih =>
    simp only [List.map_cons, List.nodup_cons] at hnd
    by_cases hx : x.id = t
    · have hnone : ∀ y ∈ xs, ¬ (y.id = t) := by
        intro y hy hyt
        exact hnd.1 (List.mem_map.mpr ⟨y, hy, by rw [hyt, hx]⟩)
      have hfil : xs.filter (fun r => decide (r.id = t)) = [] :=
        List.filter_eq_nil.mpr (fun a ha => by simpa using hnone a ha)
      simp [List.filter_cons, hx, hfil]
    · simp only [List.filter_cons, hx, decide_False, if_false]
      exact ih hnd.2

/-- Two members of an id-nodup collection with the same id are equal. -/
theorem eq_of_mem_of_id_eq (c : List Rec) (a b : Rec)
    (hnd : (c.map Rec.id).Nodup) (ha : a ∈ c) (hb : b ∈ c)
    (hab : a.id = b.id) : a = b :=
  List.inj_on_of_nodup_map hnd ha hb hab

/-- A pointwise record update keeps the list of ids. -/
theorem map_id_update (l : List Rec) (p : Rec → Bool) (u : Doc) :
    (l.map (fun r => if p r then Rec.mk r.id (setMany r.doc u) else r)).map
      Rec.id = l.map Rec.id := by
  rw [List.map_map]
  apply List.map_congr_left
  intro r hr
  by_cases hp : p r <;> simp [hp]

/-- Counting split along a second predicate. -/
theorem countP_split {α : Type} (l : List α) (p q : α → Bool) :
    l.countP (fun x => p x && q x) + l.countP (fun x => p x && !(q x)) =
      l.countP p := by
  induction l with
  | nil => rfl
  | cons x xs ih =>
    by_cases hp : p x <;> by_cases hq : q x <;>
      simp [List.countP_cons, hp, hq] <;> omega

/-- Filtering by a stronger predicate yields at most as many records. -/
theorem filter_length_mono {α : Type} (l : List α) (p q : α → Bool)
    (h : ∀ x ∈ l, p x = true → q x = true) :
    (l.filter p).length ≤ (l.filter q).length := by
  induction l with
  | nil => simp
  | cons x xs ih =>
    have ih2 := ih (fun y hy => h y (List.mem_cons_of_mem x hy))
    by_cases hp : p x
    · have hq := h x (List.mem_cons_self x xs) hp
      simp only [List.filter_cons, hp, hq, if_pos]
      simpa using ih2
    · by_cases hq : q x <;> simp only [List.filter_cons, hp, hq] <;> simp <;>
        omega

/-! ### Frame and counting lemmas -/

/-- Any collection preserves any field against itself. -/
theorem fieldPreserved_refl (k : String) (l : List Rec) :
    fieldPreserved k l l :=
  List.forall₂_same.mpr (fun _ _ => ⟨rfl, rfl⟩)

/-- updateOne with an update document avoiding a key preserves that field
on every record. -/
theorem fieldPreserved_updateOne (k : String) (c : List Rec)
    (p : Rec → Bool) (u : Doc) (hk : ∀ q ∈ u, q.1 ≠ k) :
    fieldPreserved k c (updateOne c p u).1 := by
  induction c with
  | nil => exact List.Forall₂.nil
  | cons r rs ih =>
    by_cases hr : p r
    · simp only [updateOne, hr, if_true]
      exact List.Forall₂.cons ⟨rfl, getF_setMany_not_mem u r.doc k hk⟩
        (fieldPreserved_refl k rs)
    · simp only [updateOne, hr, Bool.false_eq_true, if_false]
      exact List.Forall₂.cons ⟨rfl, rfl⟩ ih

/-- The update document of the admin user update never touches the email or
createdAt keys: both are destructured away and only updatedAt is added. -/
theorem adminUpd_keys (b : Doc) (v : Val) :
    ∀ q ∈ setF (delF (delF (delF b "_id") "email") "createdAt")
        "updatedAt" v, q.1 ≠ "email" ∧ q.1 ≠ "createdAt" := by
  intro q hq
  rcases mem_setF _ _ _ q hq with h | h
  · rw [h]; exact ⟨by decide, by decide⟩
  · obtain ⟨h1, h2⟩ := mem_delF _ _ q h
    obtain ⟨_, h4⟩ := mem_delF _ _ q h1
    exact ⟨h4, h2⟩

/-- The update document of the creator tuition edit never touches the email
or createdAt keys: both are deleted after the pending status is forced. -/
theorem creatorUpd_keys (b : Doc) (now : String) :
    ∀ q ∈ delF (delF (setF (setF (delF b "status") "updatedAt"
        (Val.str now)) "status" (Val.str "pending")) "email") "createdAt",
      q.1 ≠ "email" ∧ q.1 ≠ "createdAt" := by
  intro q hq
  obtain ⟨h1, h2⟩ := mem_delF _ _ q hq
  obtain ⟨_, h4⟩ := mem_delF _ _ q h1
  exact ⟨h4, h2⟩

/-- A member satisfying the predicate makes find? succeed. -/
theorem find?_isSome_of_mem {α : Type} (l : List α) (p : α → Bool) (a : α)
    (ha : a ∈ l) (hp : p a = true) : (l.find? p).isSome := by
  induction l with
  | nil => cases ha
  | cons x xs ih =>
    cases hx : p x with
    | true => simp [List.find?_cons_of_pos _ hx]
    | false =>
      rcases List.mem_cons.mp ha with h1 | h1
      · rw [← h1] at hx; rw [hp] at hx; cases hx
      · rw [List.find?_cons_of_neg _ (by simp [hx])]
        exact ih h1

/-- countP is determined by the predicate values on the members. -/
theorem countP_congr_mem {α : Type} (l : List α) (p q : α → Bool)
    (h : ∀ x ∈ l, p x = q x) : l.countP p = l.countP q := by
  induction l with
  | nil => rfl
  | cons x xs ih =>
    have hx := h x (List.mem_cons_self x xs)
    have ihx := ih (fun y hy => h y (List.mem_cons_of_mem x hy))
    simp [List.countP_cons, hx, ihx]

/-- In an id-nodup collection containing a record of the given id, exactly
one record carries that id. -/
theorem countP_id_unique (l : List Rec) (t : String)
    (hnd : (l.map Rec.id).Nodup) (a : Rec) (ha : a ∈ l) (hat : a.id = t) :
    l.countP (fun r => decide (r.id = t)) = 1 := by
  induction l with
  | nil => cases ha
  | cons x xs ih =>
    simp only [List.map_cons, List.nodup_cons] at hnd
    by_cases hx : x.id = t
    · have hzero : xs.countP (fun r => decide (r.id = t)) = 0 := by
        rw [List.countP_eq_zero]
        intro y hy hyt
        simp only [decide_eq_true_eq] at hyt
        exact hnd.1 (List.mem_map.mpr ⟨y, hy, by rw [hyt, hx]⟩)
      simp [List.countP_cons, hx, hzero]
    · have haxs : a ∈ xs := by
        rcases List.mem_cons.mp ha with h1 | h1
        · rw [h1] at hat; exact absurd hat hx
        · exact h1
      have := ih hnd.2 haxs
      simp [List.countP_cons, hx, this]

/-- The record list produced by updateMany, as a pointwise map. -/
theorem updateMany_fst (c : List Rec) (p : Rec → Bool) (u : Doc) :
    (updateMany c p u).1 =
      c.map (fun r => if p r then Rec.mk r.id (setMany r.doc u) else r) :=
  rfl

/-! ### Claim C4 -/

/-- C4 counterexample: a PATCH /tuitions/:id with the malformed id
"not-an-object-id" does not fail with the BadInput outcome (the only 400 of
this route is invalidAdminStatus); it lands in the catch-all branch and
answers an internal server error, with no store call attempted and the
database unchanged.  This refutes the claim that the operation fails with
BadInput. -/
theorem malformed_id_counterexample :
    patchTuition exAdmin "not-an-object-id" [] "now" exDb =
      (PatchTuitionRes.serverError, exDb, []) ∧
    (patchTuition exAdmin "not-an-object-id" [] "now" exDb).1 ≠
      PatchTuitionRes.invalidAdminStatus := by
  constructor
  · rfl
  · decide

/-- C4 (amended): for every PATCH /tuitions/:id whose id is not a
well-formed object id, the handler answers the catch-all internal error
(not BadInput), no store call is attempted and the database is unchanged. -/
theorem malformed_id_server_error (u : AuthUser) (tid : String) (body : Doc)
    (now : String) (db : DB) (h : isValidOid tid = false) :
    patchTuition u tid body now db = (PatchTuitionRes.serverError, db, []) :=
  by simp [patchTuition, h]

/-- Witness for the amended C4 theorem at a concrete malformed id. -/
theorem malformed_id_server_error_witness :
    isValidOid "not-an-object-id" = false ∧
    patchTuition exStudent "not-an-object-id" [] "t" exDb =
      (PatchTuitionRes.serverError, exDb, []) :=
  ⟨by decide,
   malformed_id_server_error exStudent "not-an-object-id" [] "t" exDb
     (by decide)⟩

/-! ### Claim C8 -/

/-- C8: a PATCH /tuitions/:id by an authenticated caller who is neither an
admin nor the creator of the tuition answers Forbidden, the database is
returned unchanged, and the only store call issued is the initial read. -/
theorem non_owner_patch_forbidden (u : AuthUser) (tid : String) (body : Doc)
    (now : String) (db : DB) (ex : Rec)
    (hv : isValidOid tid = true)
    (hfind : db.tuitions.find? (fun r => decide (r.id = tid)) = some ex)
    (hrole : u.role ≠ "admin")
    (hmail : getF ex.doc "email" ≠ some (Val.str u.email)) :
    patchTuition u tid body now db =
      (PatchTuitionRes.forbidden, db, [StoreOp.findOneOp "tuitions"]) := by
  simp [patchTuition, hv, hfind, hrole, hmail]

/-- Witness for C8: the example caller owns no tuition and is no admin. -/
theorem non_owner_patch_forbidden_witness :
    isValidOid oidT = true ∧
    exDb.tuitions.find? (fun r => decide (r.id = oidT)) = some exTuition ∧
    exOther.role ≠ "admin" ∧
    getF exTuition.doc "email" ≠ some (Val.str exOther.email) ∧
    patchTuition exOther oidT [("fee", Val.int 9)] "t" exDb =
      (PatchTuitionRes.forbidden, exDb, [StoreOp.findOneOp "tuitions"]) :=
  ⟨by decide, by decide, by decide, by decide,
   non_owner_patch_forbidden exOther oidT [("fee", Val.int 9)] "t" exDb
     exTuition (by decide) (by decide) (by decide) (by decide)⟩

/-! ### Claim C3 -/

/-- C3 counterexample: an admin supplies the status value "" (a status
outside the approved/rejected set).  The handler does not fail with
BadInput: the falsy status is silently dropped, the update proceeds, a
write is issued and the stored tuition changes (a fresh updatedAt).  This
refutes the claim that every out-of-set status value is rejected. -/
theorem admin_invalid_status_counterexample :
    (patchTuition exAdmin oidT [("status", Val.str "")] "now" exDb).1 =
      PatchTuitionRes.ok ⟨1, 1⟩ ∧
    (patchTuition exAdmin oidT [("status", Val.str "")] "now" exDb).2.2 =
      [StoreOp.findOneOp "tuitions", StoreOp.updateOneOp "tuitions"] ∧
    (patchTuition exAdmin oidT [("status", Val.str "")] "now" exDb).2.1 ≠
      exDb := by
  refine ⟨by decide, by decide, by decide⟩

/-- C3 (amended): an admin tuition update supplying a truthy status outside
the approved/rejected set fails with the invalid-status BadInput, the
database is unchanged and no write is issued; a falsy supplied status (for
example the empty string) is instead silently dropped and the update
proceeds. -/
theorem admin_truthy_invalid_status_rejected (u : AuthUser) (tid : String)
    (body : Doc) (now : String) (db : DB) (ex : Rec) (s : Val)
    (hv : isValidOid tid = true)
    (hfind : db.tuitions.find? (fun r => decide (r.id = tid)) = some ex)
    (hrole : u.role = "admin")
    (hs : getF body "status" = some s)
    (ht : truthy s = true)
    (hna : s ≠ Val.str "approved") (hnr : s ≠ Val.str "rejected") :
    patchTuition u tid body now db =
      (PatchTuitionRes.invalidAdminStatus, db,
       [StoreOp.findOneOp "tuitions"]) := by
  simp [patchTuition, hv, hfind, hrole, hs, hna, hnr, ht]

/-- Witness for the amended C3 theorem with the truthy status "hired". -/
theorem admin_truthy_invalid_status_rejected_witness :
    isValidOid oidT = true ∧
    exDb.tuitions.find? (fun r => decide (r.id = oidT)) = some exTuition ∧
    exAdmin.role = "admin" ∧
    getF [("status", Val.str "hired")] "status" = some (Val.str "hired") ∧
    truthy (Val.str "hired") = true ∧
    Val.str "hired" ≠ Val.str "approved" ∧
    Val.str "hired" ≠ Val.str "rejected" ∧
    patchTuition exAdmin oidT [("status", Val.str "hired")] "now" exDb =
      (PatchTuitionRes.invalidAdminStatus, exDb,
       [StoreOp.findOneOp "tuitions"]) :=
  ⟨by decide, by decide, by decide, by decide, by decide, by decide,
   by decide,
   admin_truthy_invalid_status_rejected exAdmin oidT
     [("status", Val.str "hired")] "now" exDb exTuition (Val.str "hired")
     (by decide) (by decide) (by decide) (by decide) (by decide) (by decide)
     (by decide)⟩

/-! ### Claim C5 -/

/-- C5: after a tuition update by an authenticated non-admin caller whose
email equals the tuition creator email, the update succeeds and the
persisted tuition has status pending, whatever status the request body
carried. -/
theorem creator_edit_resets_status_pending (u : AuthUser) (tid : String)
    (body : Doc) (now : String) (db : DB) (ex : Rec)
    (hv : isValidOid tid = true)
    (hnd : (db.tuitions.map Rec.id).Nodup)
    (hfind : db.tuitions.find? (fun r => decide (r.id = tid)) = some ex)
    (hrole : u.role ≠ "admin")
    (hmail : getF ex.doc "email" = some (Val.str u.email)) :
    (∃ ur, (patchTuition u tid body now db).1 = PatchTuitionRes.ok ur) ∧
    (∃ r ∈ (patchTuition u tid body now db).2.1.tuitions, r.id = tid) ∧
    ∀ r ∈ (patchTuition u tid body now db).2.1.tuitions, r.id = tid →
      getF r.doc "status" = some (Val.str "pending") := by
  have hred : patchTuition u tid body now db =
      (PatchTuitionRes.ok (updateOne db.tuitions
         (fun r => decide (r.id = tid))
         (delF (delF (setF (setF (delF body "status") "updatedAt"
           (Val.str now)) "status" (Val.str "pending")) "email")
           "createdAt")).2,
       { db with tuitions := (updateOne db.tuitions
           (fun r => decide (r.id = tid))
           (delF (delF (setF (setF (delF body "status") "updatedAt"
             (Val.str now)) "status" (Val.str "pending")) "email")
             "createdAt")).1 },
       [StoreOp.findOneOp "tuitions", StoreOp.updateOneOp "tuitions"]) := by
    simp [patchTuition, hv, hfind, hrole, hmail]
  have hex : ex ∈ db.tuitions := List.mem_of_find?_eq_some hfind
  have hexid : ex.id = tid := by
    have := List.find?_some hfind
    simpa using this
  have hmap := updateOne_eq_map db.tuitions (fun r => decide (r.id = tid))
    (delF (delF (setF (setF (delF body "status") "updatedAt"
      (Val.str now)) "status" (Val.str "pending")) "email") "createdAt")
    (filter_id_len_le_one db.tuitions tid hnd)
  have hpend : ("status", Val.str "pending") ∈
      delF (delF (setF (setF (delF body "status") "updatedAt"
        (Val.str now)) "status" (Val.str "pending")) "email") "createdAt" := by
    apply mem_delF_of_mem _ _ _ _ (by decide)
    apply mem_delF_of_mem _ _ _ _ (by decide)
    exact mem_setF_self _ _ _
  have hall : ∀ q ∈ delF (delF (setF (setF (delF body "status") "updatedAt"
      (Val.str now)) "status" (Val.str "pending")) "email") "createdAt",
      q.1 = "status" → q.2 = Val.str "pending" := by
    intro q hq hk
    obtain ⟨h1, _⟩ := mem_delF _ _ q hq
    obtain ⟨h2, _⟩ := mem_delF _ _ q h1
    exact setF_forall_key _ _ _ q h2 hk
  have hstat : ∀ d : Doc, getF (setMany d
      (delF (delF (setF (setF (delF body "status") "updatedAt"
        (Val.str now)) "status" (Val.str "pending")) "email") "createdAt"))
      "status" = some (Val.str "pending") := fun d =>
    getF_setMany_forall _ d _ _ hall ⟨_, hpend, rfl⟩
  refine ⟨⟨_, by rw [hred]⟩, ?_, ?_⟩
  · rw [hred]
    rw [show ({ db with tuitions := (updateOne db.tuitions
        (fun r => decide (r.id = tid))
        (delF (delF (setF (setF (delF body "status") "updatedAt"
          (Val.str now)) "status" (Val.str "pending")) "email")
          "createdAt")).1 } : DB).tuitions = _ from rfl, hmap]
    refine ⟨_, List.mem_map.mpr ⟨ex, hex, rfl⟩, ?_⟩
    simp [hexid]
  · intro r hr hrid
    rw [hred] at hr
    rw [hmap] at hr
    obtain ⟨r0, hr0, hre⟩ := List.mem_map.mp hr
    by_cases h0 : r0.id = tid
    · rw [← hre]
      simp only [h0, decide_True, if_true]
      exact hstat r0.doc
    · rw [← hre] at hrid
      simp only [h0, decide_False, if_false] at hrid
      exact absurd hrid h0

/-- Witness for C5: the creator edits the example tuition supplying the
status value confirmed; the stored status is pending anyway. -/
theorem creator_edit_resets_status_pending_witness :
    isValidOid oidT = true ∧
    (exDb.tuitions.map Rec.id).Nodup ∧
    exDb.tuitions.find? (fun r => decide (r.id = oidT)) = some exTuition ∧
    exStudent.role ≠ "admin" ∧
    getF exTuition.doc "email" = some (Val.str exStudent.email) ∧
    ((∃ ur, (patchTuition exStudent oidT [("status", Val.str "confirmed")]
        "t" exDb).1 = PatchTuitionRes.ok ur) ∧
     (∃ r ∈ (patchTuition exStudent oidT [("status", Val.str "confirmed")]
        "t" exDb).2.1.tuitions, r.id = oidT) ∧
     ∀ r ∈ (patchTuition exStudent oidT [("status", Val.str "confirmed")]
        "t" exDb).2.1.tuitions, r.id = oidT →
       getF r.doc "status" = some (Val.str "pending")) :=
  ⟨by decide, by decide, by decide, by decide, by decide,
   creator_edit_resets_status_pending exStudent oidT
     [("status", Val.str "confirmed")] "t" exDb exTuition (by decide)
     (by decide) (by decide) (by decide) (by decide)⟩

/-! ### Claim C6 -/

/-- C6: when a user record whose stored email equals the case-normalized
form of the request email is already present, a registration call leaves
the users collection (and the whole database) untouched and answers the
existing-user message with a null inserted id (the alreadyExists outcome). -/
theorem registration_idempotent (body : Doc) (now : Nat) (freshId : String)
    (db : DB) (e : String) (r : Rec)
    (hbody : getF body "email" = some (Val.str e))
    (hne : e ≠ "")
    (hr : r ∈ db.users)
    (hmail : getF r.doc "email" = some (Val.str (lowerStr e))) :
    postUsers body now freshId db = (PostUsersRes.alreadyExists, db) := by
  have hfind : (db.users.find? (fun x =>
      decide (getF x.doc "email" = some (Val.str (lowerStr e))))).isSome :=
    find?_isSome_of_mem _ _ r hr (by simp [hmail])
  simp [postUsers, hbody, hne, hfind]

/-- Witness for C6: registering the already-present student email with a
different letter case is a no-op reporting the existing user. -/
theorem registration_idempotent_witness :
    getF [("email", Val.str "Stu@Example.com")] "email" =
      some (Val.str "Stu@Example.com") ∧
    "Stu@Example.com" ≠ "" ∧
    exUserRec ∈ exDb.users ∧
    getF exUserRec.doc "email" =
      some (Val.str (lowerStr "Stu@Example.com")) ∧
    postUsers [("email", Val.str "Stu@Example.com")] 3 oidB exDb =
      (PostUsersRes.alreadyExists, exDb) :=
  ⟨by decide, by decide, by decide, by decide,
   registration_idempotent [("email", Val.str "Stu@Example.com")] 3 oidB
     exDb "Stu@Example.com" exUserRec (by decide) (by decide) (by decide)
     (by decide)⟩

/-! ### Claim C9 -/

/-- C9: the payment-intent operation refuses a missing or zero salary
before contacting the processor (the salaryRequired outcome carries no
charge request), and otherwise requests a charge whose integer minor-unit
amount is the salary times 100 rounded to the nearest cent (within half a
cent of the exact product). -/
theorem payment_intent_amount (s : ℚ) (hs : s ≠ 0) :
    createPaymentIntent none = IntentRes.salaryRequired ∧
    createPaymentIntent (some 0) = IntentRes.salaryRequired ∧
    createPaymentIntent (some s) = IntentRes.charged (jsRound (s * 100)) ∧
    |(jsRound (s * 100) : ℚ) - s * 100| ≤ 1 / 2 := by
  refine ⟨rfl, by simp [createPaymentIntent], by simp [createPaymentIntent, hs], ?_⟩
  rw [abs_le]
  unfold jsRound
  constructor
  · have h := Int.lt_floor_add_one (s * 100 + 1 / 2)
    push_cast at h ⊢
    linarith
  · have h := Int.floor_le (s * 100 + 1 / 2)
    push_cast at h ⊢
    linarith

/-- Witness for C9 at the salary 19.99: the requested amount is 1999 minor
units. -/
theorem payment_intent_amount_witness :
    (1999 / 100 : ℚ) ≠ 0 ∧
    jsRound ((1999 / 100 : ℚ) * 100) = 1999 ∧
    (createPaymentIntent none = IntentRes.salaryRequired ∧
     createPaymentIntent (some 0) = IntentRes.salaryRequired ∧
     createPaymentIntent (some (1999 / 100 : ℚ)) =
       IntentRes.charged (jsRound ((1999 / 100 : ℚ) * 100)) ∧
     |(jsRound ((1999 / 100 : ℚ) * 100) : ℚ) - (1999 / 100 : ℚ) * 100| ≤
       1 / 2) :=
  ⟨by norm_num,
   by norm_num [jsRound],
   payment_intent_amount (1999 / 100 : ℚ) (by norm_num)⟩

/-! ### Claim C2 -/

/-- C2 counterexample: an admin PATCH /tuitions/:id whose body carries an
email field overwrites the stored tuition email (the admin branch does not
strip email or createdAt from the update, unlike the creator branch and the
admin user update).  The stored creator email changes from
stu@example.com to evil@example.com, refuting the write-once claim. -/
theorem immutable_fields_counterexample :
    getF exTuition.doc "email" = some (Val.str "stu@example.com") ∧
    (patchTuition exAdmin oidT [("email", Val.str "evil@example.com")]
        "now" exDb).2.1.tuitions.map (fun r => getF r.doc "email") =
      [some (Val.str "evil@example.com")] := by
  refine ⟨by decide, by decide⟩

/-- C2 (amended): the admin user update never changes any stored user
email or createdAt; a non-admin tuition update (creator edit or forbidden)
never changes any stored tuition email or createdAt; the profile update
never changes any stored user createdAt.  The paths excluded by the
counterexamples are the admin tuition update (which applies body email and
createdAt fields) and the profile update email write. -/
theorem immutable_fields_amended (uA uT uP : AuthUser)
    (hT : uT.role ≠ "admin")
    (uid tid : String) (bA bT bP : Doc) (nA nP : Nat) (nT : String)
    (d1 d2 d3 : DB) :
    fieldPreserved "email" d1.users
      (adminUserUpdate uA uid bA nA d1).2.users ∧
    fieldPreserved "createdAt" d1.users
      (adminUserUpdate uA uid bA nA d1).2.users ∧
    fieldPreserved "email" d2.tuitions
      (patchTuition uT tid bT nT d2).2.1.tuitions ∧
    fieldPreserved "createdAt" d2.tuitions
      (patchTuition uT tid bT nT d2).2.1.tuitions ∧
    fieldPreserved "createdAt" d3.users
      (profileUpdate uP bP nP d3).2.users := by
  have hadmin : ∀ k : String, (∀ q ∈ setF (delF (delF (delF bA "_id")
      "email") "createdAt") "updatedAt" (Val.time nA), q.1 ≠ k) →
      fieldPreserved k d1.users (adminUserUpdate uA uid bA nA d1).2.users := by
    intro k hk
    by_cases hA : uA.role = "admin"
    · by_cases hV : isValidOid uid
      · simp only [adminUserUpdate, hA, hV, if_true]
        exact fieldPreserved_updateOne k d1.users _ _ hk
      · simp only [adminUserUpdate, hA, hV, Bool.false_eq_true, if_false,
          if_true]
        exact fieldPreserved_refl k d1.users
    · simp only [adminUserUpdate, hA, if_false]
      exact fieldPreserved_refl k d1.users
  have htuit : ∀ k : String, k ≠ "updatedAt" →
      (∀ b now, ∀ q ∈ delF (delF (setF (setF (delF b "status") "updatedAt"
        (Val.str now)) "status" (Val.str "pending")) "email") "createdAt",
        q.1 ≠ k) →
      fieldPreserved k d2.tuitions
        (patchTuition uT tid bT nT d2).2.1.tuitions := by
    intro k _ hk
    by_cases hV : isValidOid tid
    · cases hF : d2.tuitions.find? (fun r => decide (r.id = tid)) with
      | none =>
        simp only [patchTuition, hV, if_true, hF]
        exact fieldPreserved_refl k d2.tuitions
      | some ex =>
        by_cases hC : getF ex.doc "email" = some (Val.str uT.email)
        · simp only [patchTuition, hV, if_true, hF, hT, if_false, hC]
          exact fieldPreserved_updateOne k d2.tuitions _ _ (hk bT nT)
        · simp only [patchTuition, hV, if_true, hF, hT, if_false, hC]
          exact fieldPreserved_refl k d2.tuitions
    · simp only [patchTuition, hV, Bool.false_eq_true, if_false]
      exact fieldPreserved_refl k d2.tuitions
  refine ⟨hadmin "email" (fun q hq => (adminUpd_keys bA _ q hq).1),
    hadmin "createdAt" (fun q hq => (adminUpd_keys bA _ q hq).2),
    htuit "email" (by decide) (fun b now q hq => (creatorUpd_keys b now q hq).1),
    htuit "createdAt" (by decide)
      (fun b now q hq => (creatorUpd_keys b now q hq).2), ?_⟩
  cases hE : getF bP "email" with
  | none =>
    simp only [profileUpdate, hE]
    exact fieldPreserved_refl "createdAt" d3.users
  | some v =>
    cases v with
    | str e =>
      simp only [profileUpdate, hE]
      apply fieldPreserved_updateOne
      intro q hq
      simp only [List.mem_cons, List.not_mem_nil, or_false] at hq
      rcases hq with h | h | h | h <;> rw [h] <;>
        first
          | exact (show ("displayName" : String) ≠ "createdAt" by decide)
          | exact (show ("email" : String) ≠ "createdAt" by decide)
          | exact (show ("photoURL" : String) ≠ "createdAt" by decide)
          | exact (show ("updatedAt" : String) ≠ "createdAt" by decide)
    | null =>
      simp only [profileUpdate, hE]
      exact fieldPreserved_refl "createdAt" d3.users
    | int n =>
      simp only [profileUpdate, hE]
      exact fieldPreserved_refl "createdAt" d3.users
    | time t =>
      simp only [profileUpdate, hE]
      exact fieldPreserved_refl "createdAt" d3.users

/-- Witness for the amended C2 theorem on the example data. -/
theorem immutable_fields_amended_witness :
    exStudent.role ≠ "admin" ∧
    (fieldPreserved "email" exDb.users
       (adminUserUpdate exAdmin oidU [("role", Val.str "tutor"),
         ("email", Val.str "x@y.z")] 9 exDb).2.users ∧
     fieldPreserved "createdAt" exDb.users
       (adminUserUpdate exAdmin oidU [("role", Val.str "tutor"),
         ("email", Val.str "x@y.z")] 9 exDb).2.users ∧
     fieldPreserved "email" exDb.tuitions
       (patchTuition exStudent oidT [("email", Val.str "x@y.z"),
         ("createdAt", Val.time 99)] "t" exDb).2.1.tuitions ∧
     fieldPreserved "createdAt" exDb.tuitions
       (patchTuition exStudent oidT [("email", Val.str "x@y.z"),
         ("createdAt", Val.time 99)] "t" exDb).2.1.tuitions ∧
     fieldPreserved "createdAt" exDb.users
       (profileUpdate exStudent [("displayName", Val.str "S"),
         ("email", Val.str "stu@example.com"),
         ("createdAt", Val.time 99)] 9 exDb).2.users) :=
  ⟨by decide,
   immutable_fields_amended exAdmin exStudent exStudent (by decide)
     oidU oidT [("role", Val.str "tutor"), ("email", Val.str "x@y.z")]
     [("email", Val.str "x@y.z"), ("createdAt", Val.time 99)]
     [("displayName", Val.str "S"), ("email", Val.str "stu@example.com"),
      ("createdAt", Val.time 99)] 9 9 "t" exDb exDb exDb⟩

/-! ### Claim C7 -/

/-- C7 counterexample: the first example application is owned by tutor t1
(tutorEmail t1@example.com) and is still in the applied state, yet tutor t1
invoking the self-reject route on it gets not-found and the database is
unchanged: the update query filters by the studentEmail field, not by the
owning tutor.  This refutes the claim that the owning tutor can transition
their own application to rejected. -/
theorem self_reject_owner_scope_counterexample :
    rejectApplication exTutor1 oidA exDb =
      (RejectAppRes.notFoundOrUnauthorized, exDb) ∧
    exApp1 ∈ exDb.applications ∧
    exApp1.id = oidA ∧
    getF exApp1.doc "tutorEmail" = some (Val.str exTutor1.decodedEmail) ∧
    getF exApp1.doc "status" = some (Val.str "applied") := by
  refine ⟨by decide, by decide, by decide, by decide, by decide⟩

/-- C7 (amended): the reject route is scoped by the application
studentEmail: a caller whose verified email equals the stored studentEmail
of the referenced not-yet-rejected application succeeds and the stored
status becomes rejected, while a caller whose verified email differs from
the studentEmail of every application carrying the id (including the owning
tutor) gets the not-found outcome with the store unchanged, never a
distinct permission error. -/
theorem reject_scoped_by_student_email
    (u u2 : AuthUser) (appId appId2 : String) (db db2 : DB) (a : Rec)
    (hv : isValidOid appId = true)
    (hnd : (db.applications.map Rec.id).Nodup)
    (ha : a ∈ db.applications) (hid : a.id = appId)
    (hown : getF a.doc "studentEmail" = some (Val.str u.decodedEmail))
    (hst : getF a.doc "status" ≠ some (Val.str "rejected"))
    (hv2 : isValidOid appId2 = true)
    (hmis : ∀ r ∈ db2.applications, r.id = appId2 →
      getF r.doc "studentEmail" ≠ some (Val.str u2.decodedEmail)) :
    ((rejectApplication u appId db).1 = RejectAppRes.ok ⟨1, 1⟩ ∧
     ∀ r ∈ (rejectApplication u appId db).2.applications, r.id = appId →
       getF r.doc "status" = some (Val.str "rejected")) ∧
    rejectApplication u2 appId2 db2 =
      (RejectAppRes.notFoundOrUnauthorized, db2) := by
  have hrej : ∀ d : Doc, getF (setMany d [("status", Val.str "rejected")])
      "status" = some (Val.str "rejected") := fun d =>
    getF_setMany_forall _ d _ _
      (fun q hq _ => by simp only [List.mem_singleton] at hq; rw [hq])
      ⟨("status", Val.str "rejected"), List.mem_singleton.mpr rfl, rfl⟩
  have hple : (db.applications.filter (fun r => decide (r.id = appId ∧
      getF r.doc "studentEmail" = some (Val.str u.decodedEmail)))).length
      ≤ 1 :=
    le_trans
      (filter_length_mono db.applications _
        (fun r => decide (r.id = appId))
        (by intro x _ hpx; simp only [decide_eq_true_eq] at hpx ⊢
            exact hpx.1))
      (filter_id_len_le_one db.applications appId hnd)
  have hpa : decide (a.id = appId ∧
      getF a.doc "studentEmail" = some (Val.str u.decodedEmail))
      = true := by simp [hid, hown]
  have hch : setMany a.doc [("status", Val.str "rejected")] ≠ a.doc := by
    intro hcontra
    have := hrej a.doc
    rw [hcontra] at this
    exact hst this
  have hcount := updateOne_found db.applications _
    [("status", Val.str "rejected")] a ha hpa hple hch
  have hmap := updateOne_eq_map db.applications
    (fun r => decide (r.id = appId ∧
      getF r.doc "studentEmail" = some (Val.str u.decodedEmail)))
    [("status", Val.str "rejected")] hple
  refine ⟨⟨?_, ?_⟩, ?_⟩
  · simp only [rejectApplication, hv, eq_self_iff_true, if_true]
    rw [hcount]
    norm_num
  · intro r hr hrid
    simp only [rejectApplication, hv, eq_self_iff_true, if_true] at hr
    rw [hcount] at hr
    rw [if_neg (by decide : ¬ (UpdRes.mk 1 1).modified = 0)] at hr
    rw [hmap] at hr
    obtain ⟨r0, hr0, hre⟩ := List.mem_map.mp hr
    by_cases hp0 : (fun r => decide (r.id = appId ∧
        getF r.doc "studentEmail" = some (Val.str u.decodedEmail))) r0
        = true
    · rw [← hre]
      simp only [hp0, if_true]
      exact hrej r0.doc
    · rw [← hre] at hrid
      simp only [hp0, Bool.false_eq_true, if_false] at hrid ⊢
      simp only [Bool.not_eq_true] at hp0
      have hra : r0 = a :=
        eq_of_mem_of_id_eq db.applications r0 a hnd hr0 ha
          (hrid.trans hid.symm)
      rw [hra] at hp0
      rw [hpa] at hp0
      cases hp0
  · have hnom : ∀ r ∈ db2.applications,
        (fun r => decide (r.id = appId2 ∧ getF r.doc "studentEmail" =
          some (Val.str u2.decodedEmail))) r = false := by
      intro r hr
      simp only [decide_eq_false_iff_not, not_and]
      exact hmis r hr
    have h2 := updateOne_nomatch db2.applications _
      [("status", Val.str "rejected")] hnom
    simp only [rejectApplication, hv2, eq_self_iff_true, if_true]
    rw [h2]
    norm_num

/-- Witness for the amended C7 theorem: the student whose email is stored
in studentEmail can reject application A, while tutor t1 (its owner by
tutorEmail) cannot. -/
theorem reject_scoped_by_student_email_witness :
    isValidOid oidA = true ∧
    (exDb.applications.map Rec.id).Nodup ∧
    exApp1 ∈ exDb.applications ∧
    exApp1.id = oidA ∧
    getF exApp1.doc "studentEmail" =
      some (Val.str exStudent.decodedEmail) ∧
    getF exApp1.doc "status" ≠ some (Val.str "rejected") ∧
    (∀ r ∈ exDb.applications, r.id = oidA →
      getF r.doc "studentEmail" ≠ some (Val.str exTutor1.decodedEmail)) ∧
    (((rejectApplication exStudent oidA exDb).1 =
        RejectAppRes.ok ⟨1, 1⟩ ∧
      ∀ r ∈ (rejectApplication exStudent oidA exDb).2.applications,
        r.id = oidA → getF r.doc "status" = some (Val.str "rejected")) ∧
     rejectApplication exTutor1 oidA exDb =
       (RejectAppRes.notFoundOrUnauthorized, exDb)) :=
  ⟨by decide, by decide, by decide, by decide, by decide, by decide,
   by decide,
   reject_scoped_by_student_email exStudent exTutor1 oidA oidA exDb exDb
     exApp1 (by decide) (by decide) (by decide) (by decide) (by decide)
     (by decide) (by decide) (by decide)⟩

/-! ### Claim C10 -/

/-- C10: the hiring workflow checks nothing about the caller beyond
authentication: for every authenticated caller and every payload with
well-formed ids the run succeeds, issues exactly the four writes (payment
insert, application accept, competing-application reject, tuition confirm),
and its entire outcome is independent of the caller identity and role, so
no Forbidden outcome exists on this route. -/
theorem payments_no_authorization_check (u u2 : AuthUser) (body : Doc)
    (now : Nat) (freshId : String) (db : DB) (appId tid : String)
    (hA : getF body "applicationId" = some (Val.str appId))
    (hAv : isValidOid appId = true)
    (hT : getF body "tuitionId" = some (Val.str tid))
    (hTv : isValidOid tid = true) :
    (postPayments u body now freshId db).1 = PostPaymentsRes.success ∧
    (postPayments u body now freshId db).2.2 =
      [StoreOp.insertOneOp "payments", StoreOp.updateOneOp "applications",
       StoreOp.updateManyOp "applications",
       StoreOp.updateOneOp "tuitions"] ∧
    postPayments u body now freshId db =
      postPayments u2 body now freshId db := by
  refine ⟨?_, ?_, rfl⟩ <;> simp [postPayments, hA, hAv, hT, hTv]

/-- Witness for C10: a tutor caller (no role or ownership relation to the
payload is checked) runs the workflow successfully on the example data. -/
theorem payments_no_authorization_check_witness :
    getF exPayBody "applicationId" = some (Val.str oidA) ∧
    isValidOid oidA = true ∧
    getF exPayBody "tuitionId" = some (Val.str oidT) ∧
    isValidOid oidT = true ∧
    ((postPayments exOther exPayBody 7 oidU exDb).1 =
       PostPaymentsRes.success ∧
     (postPayments exOther exPayBody 7 oidU exDb).2.2 =
       [StoreOp.insertOneOp "payments", StoreOp.updateOneOp "applications",
        StoreOp.updateManyOp "applications",
        StoreOp.updateOneOp "tuitions"] ∧
     postPayments exOther exPayBody 7 oidU exDb =
       postPayments exAdmin exPayBody 7 oidU exDb) :=
  ⟨by decide, by decide, by decide, by decide,
   payments_no_authorization_check exOther exAdmin exPayBody 7 oidU exDb
     oidA oidT (by decide) (by decide) (by decide) (by decide)⟩

/-! ### Hiring workflow helper lemmas -/

/-- Setting the status field makes the status read the written value. -/
theorem getF_set_status (d : Doc) (v : Val) :
    getF (setMany d [("status", v)]) "status" = some v :=
  getF_setMany_forall _ d _ _
    (fun q hq _ => by simp only [List.mem_singleton] at hq; rw [hq])
    ⟨("status", v), List.mem_singleton.mpr rfl, rfl⟩

/-- Setting the status field leaves the tuitionId field unchanged. -/
theorem getF_set_status_tuitionId (d : Doc) (v : Val) :
    getF (setMany d [("status", v)]) "tuitionId" = getF d "tuitionId" :=
  getF_setMany_not_mem _ d _
    (fun q hq => by
      simp only [List.mem_singleton] at hq
      rw [hq]
      exact (show ("status" : String) ≠ "tuitionId" by decide))

/-- The application collection state after the accept write followed by the
competing-bids reject write of the hiring workflow: every application of
the tuition ends accepted exactly when it is the paid one, the ids are
unchanged, and the accepted/rejected counts are one and all-but-one. -/
theorem hiring_apps_spec (l M : List Rec) (appId tid : String) (a : Rec)
    (hnd : (l.map Rec.id).Nodup) (ha : a ∈ l) (haid : a.id = appId)
    (hat : getF a.doc "tuitionId" = some (Val.str tid))
    (hM : M = (updateMany (updateOne l (fun r => decide (r.id = appId))
        [("status", Val.str "accepted")]).1
      (fun r => decide (getF r.doc "tuitionId" = some (Val.str tid) ∧
        r.id ≠ appId))
      [("status", Val.str "rejected")]).1) :
    M.map Rec.id = l.map Rec.id ∧
    (∀ r ∈ M, getF r.doc "tuitionId" = some (Val.str tid) →
      getF r.doc "status" =
        some (Val.str (if r.id = appId then "accepted" else "rejected"))) ∧
    (∃ r ∈ M, r.id = appId ∧
      getF r.doc "tuitionId" = some (Val.str tid)) ∧
    (M.filter (fun r => decide (getF r.doc "tuitionId" =
        some (Val.str tid) ∧
      getF r.doc "status" = some (Val.str "accepted")))).length = 1 ∧
    (M.filter (fun r => decide (getF r.doc "tuitionId" =
        some (Val.str tid) ∧
      getF r.doc "status" = some (Val.str "rejected")))).length + 1 =
      (l.filter (fun r => decide (getF r.doc "tuitionId" =
        some (Val.str tid)))).length := by
  have hneq1 : (some (Val.str "rejected") : Option Val) ≠
      some (Val.str "accepted") := by decide
  have hneq2 : (some (Val.str "accepted") : Option Val) ≠
      some (Val.str "rejected") := by decide
  have hle1 := filter_id_len_le_one l appId hnd
  have hcomp : M = l.map (fun r =>
      if r.id = appId then
        Rec.mk r.id (setMany r.doc [("status", Val.str "accepted")])
      else if getF r.doc "tuitionId" = some (Val.str tid) then
        Rec.mk r.id (setMany r.doc [("status", Val.str "rejected")])
      else r) := by
    rw [hM, updateOne_eq_map l _ _ hle1, updateMany_fst, List.map_map]
    apply List.map_congr_left
    intro r _
    by_cases h1 : r.id = appId
    · simp [Function.comp, h1, getF_set_status_tuitionId]
    · by_cases h2 : getF r.doc "tuitionId" = some (Val.str tid) <;>
        simp [Function.comp, h1, h2]
  subst hcomp
  refine ⟨?_, ?_, ?_, ?_, ?_⟩
  · rw [List.map_map]
    apply List.map_congr_left
    intro r _
    by_cases h1 : r.id = appId <;>
      by_cases h2 : getF r.doc "tuitionId" = some (Val.str tid) <;>
      simp [h1, h2]
  · intro r' hr' href
    obtain ⟨r, hrl, hre⟩ := List.mem_map.mp hr'
    by_cases h1 : r.id = appId
    · have hra : r = a := eq_of_mem_of_id_eq l r a hnd hrl ha
        (h1.trans haid.symm)
      subst hra
      rw [← hre]
      simp [h1, getF_set_status]
    · by_cases h2 : getF r.doc "tuitionId" = some (Val.str tid)
      · rw [← hre]
        simp [h1, h2, getF_set_status]
      · rw [← hre] at href
        simp only [h1, h2, if_false] at href
  · refine ⟨_, List.mem_map.mpr ⟨a, ha, rfl⟩, ?_, ?_⟩
    · simp [haid]
    · simp [haid, getF_set_status_tuitionId, hat]
  · rw [← List.countP_eq_length_filter, List.countP_map]
    rw [countP_congr_mem l _ (fun r => decide (r.id = appId)) ?_]
    · exact countP_id_unique l appId hnd a ha haid
    · intro r hrl
      by_cases h1 : r.id = appId
      · have hra : r = a := eq_of_mem_of_id_eq l r a hnd hrl ha
          (h1.trans haid.symm)
        subst hra
        simp [Function.comp, h1, getF_set_status, getF_set_status_tuitionId,
          hat]
      · by_cases h2 : getF r.doc "tuitionId" = some (Val.str tid) <;>
          simp [Function.comp, h1, h2, getF_set_status,
            getF_set_status_tuitionId, hneq1]
  · rw [← List.countP_eq_length_filter, ← List.countP_eq_length_filter,
      List.countP_map]
    have hsplit := countP_split l
      (fun r => decide (getF r.doc "tuitionId" = some (Val.str tid)))
      (fun r => decide (r.id = appId))
    have hone : l.countP (fun r =>
        decide (getF r.doc "tuitionId" = some (Val.str tid)) &&
        decide (r.id = appId)) = 1 := by
      rw [countP_congr_mem l _ (fun r => decide (r.id = appId)) ?_]
      · exact countP_id_unique l appId hnd a ha haid
      · intro r hrl
        by_cases h1 : r.id = appId
        · have hra : r = a := eq_of_mem_of_id_eq l r a hnd hrl ha
            (h1.trans haid.symm)
          subst hra
          simp [h1, hat]
        · simp [h1]
    rw [countP_congr_mem l _ (fun r =>
        decide (getF r.doc "tuitionId" = some (Val.str tid)) &&
        !(decide (r.id = appId))) ?_]
    · omega
    · intro r hrl
      by_cases h1 : r.id = appId
      · have hra : r = a := eq_of_mem_of_id_eq l r a hnd hrl ha
          (h1.trans haid.symm)
        subst hra
        simp [Function.comp, h1, getF_set_status, getF_set_status_tuitionId,
          hneq2]
      · by_cases h2 : getF r.doc "tuitionId" = some (Val.str tid) <;>
          simp [Function.comp, h1, h2, getF_set_status,
            getF_set_status_tuitionId]

/-- The tuition collection state after the confirm write of the hiring
workflow: the referenced tuition exists and reads status confirmed. -/
theorem hiring_tuition_spec (l : List Rec) (tid : String) (t : Rec)
    (hnd : (l.map Rec.id).Nodup) (ht : t ∈ l) (htid : t.id = tid) :
    (∀ r ∈ (updateOne l (fun r => decide (r.id = tid))
        [("status", Val.str "confirmed")]).1, r.id = tid →
      getF r.doc "status" = some (Val.str "confirmed")) ∧
    ∃ r ∈ (updateOne l (fun r => decide (r.id = tid))
        [("status", Val.str "confirmed")]).1, r.id = tid := by
  rw [updateOne_eq_map l _ _ (filter_id_len_le_one l tid hnd)]
  constructor
  · intro r hr hrid
    obtain ⟨r0, hr0, hre⟩ := List.mem_map.mp hr
    by_cases h0 : r0.id = tid
    · rw [← hre]
      simp [h0, getF_set_status]
    · rw [← hre] at hrid
      simp only [h0, decide_False, Bool.false_eq_true, if_false] at hrid
  · refine ⟨_, List.mem_map.mpr ⟨t, ht, rfl⟩, ?_⟩
    simp [htid]

/-! ### Claim C1 -/

/-- C1: a successful hiring workflow run on a tuition T with a payment
naming an application that references T yields: success; the payments
collection extended by exactly one new record whose document carries
paymentStatus paid and the paid application and tuition ids; an unchanged
set of application ids among which every application referencing T reads
accepted exactly when it is the paid one (so exactly one accepted, the
other N-1 rejected, witnessed by the two counting equations); and a
tuition collection in which the record with the id of T exists and reads
status confirmed. -/
theorem hiring_workflow_exclusive_accept (u : AuthUser) (body : Doc)
    (now : Nat) (freshId : String) (db : DB) (appId tid : String)
    (a t : Rec)
    (hA : getF body "applicationId" = some (Val.str appId))
    (hAv : isValidOid appId = true)
    (hT : getF body "tuitionId" = some (Val.str tid))
    (hTv : isValidOid tid = true)
    (hndA : (db.applications.map Rec.id).Nodup)
    (hndT : (db.tuitions.map Rec.id).Nodup)
    (ha : a ∈ db.applications) (haid : a.id = appId)
    (hat : getF a.doc "tuitionId" = some (Val.str tid))
    (ht : t ∈ db.tuitions) (htid : t.id = tid) :
    (postPayments u body now freshId db).1 = PostPaymentsRes.success ∧
    (postPayments u body now freshId db).2.1.payments =
      db.payments ++ [⟨freshId, paymentDocOf body now⟩] ∧
    getF (paymentDocOf body now) "paymentStatus" =
      some (Val.str "paid") ∧
    getF (paymentDocOf body now) "applicationId" =
      some (Val.str appId) ∧
    getF (paymentDocOf body now) "tuitionId" = some (Val.str tid) ∧
    (postPayments u body now freshId db).2.1.applications.map Rec.id =
      db.applications.map Rec.id ∧
    (∀ r ∈ (postPayments u body now freshId db).2.1.applications,
      getF r.doc "tuitionId" = some (Val.str tid) →
      getF r.doc "status" =
        some (Val.str (if r.id = appId then "accepted" else "rejected"))) ∧
    (∃ r ∈ (postPayments u body now freshId db).2.1.applications,
      r.id = appId ∧ getF r.doc "tuitionId" = some (Val.str tid)) ∧
    ((postPayments u body now freshId db).2.1.applications.filter
      (fun r => decide (getF r.doc "tuitionId" = some (Val.str tid) ∧
        getF r.doc "status" = some (Val.str "accepted")))).length = 1 ∧
    ((postPayments u body now freshId db).2.1.applications.filter
      (fun r => decide (getF r.doc "tuitionId" = some (Val.str tid) ∧
        getF r.doc "status" = some (Val.str "rejected")))).length + 1 =
      (db.applications.filter (fun r =>
        decide (getF r.doc "tuitionId" = some (Val.str tid)))).length ∧
    (∀ r ∈ (postPayments u body now freshId db).2.1.tuitions,
      r.id = tid → getF r.doc "status" = some (Val.str "confirmed")) ∧
    ∃ r ∈ (postPayments u body now freshId db).2.1.tuitions, r.id = tid
    := by
  have hred : postPayments u body now freshId db =
      (PostPaymentsRes.success,
       { users := db.users,
         tuitions := (updateOne db.tuitions
           (fun r => decide (r.id = tid))
           [("status", Val.str "confirmed")]).1,
         applications := (updateMany (updateOne db.applications
             (fun r => decide (r.id = appId))
             [("status", Val.str "accepted")]).1
           (fun r => decide (getF r.doc "tuitionId" =
             some (Val.str tid) ∧ r.id ≠ appId))
           [("status", Val.str "rejected")]).1,
         payments := db.payments ++ [⟨freshId, paymentDocOf body now⟩] },
       [StoreOp.insertOneOp "payments", StoreOp.updateOneOp "applications",
        StoreOp.updateManyOp "applications",
        StoreOp.updateOneOp "tuitions"]) := by
    simp [postPayments, hA, hAv, hT, hTv]
  obtain ⟨hids, hpt, hexa, hcnt1, hcnt2⟩ :=
    hiring_apps_spec db.applications _ appId tid a hndA ha haid hat rfl
  obtain ⟨htall, htex⟩ := hiring_tuition_spec db.tuitions tid t hndT ht htid
  have h4a := getF_setF_ne (setF body "date" (Val.time now)) "paymentStatus"
    "applicationId" (Val.str "paid") (by decide)
  have h4b := getF_setF_ne body "date" "applicationId" (Val.time now)
    (by decide)
  have h5a := getF_setF_ne (setF body "date" (Val.time now)) "paymentStatus"
    "tuitionId" (Val.str "paid") (by decide)
  have h5b := getF_setF_ne body "date" "tuitionId" (Val.time now)
    (by decide)
  rw [hred]
  exact ⟨rfl, rfl, getF_setF_self _ _ _, h4a.trans (h4b.trans hA),
    h5a.trans (h5b.trans hT), hids, hpt, hexa, hcnt1, hcnt2, htall, htex⟩

/-- Witness for C1: the workflow on the example tuition with two
applications accepts exactly the paid application A, rejects B, confirms
the tuition and records one paid payment. -/
theorem hiring_workflow_exclusive_accept_witness :
    getF exPayBody "applicationId" = some (Val.str oidA) ∧
    isValidOid oidA = true ∧
    getF exPayBody "tuitionId" = some (Val.str oidT) ∧
    isValidOid oidT = true ∧
    (exDb.applications.map Rec.id).Nodup ∧
    (exDb.tuitions.map Rec.id).Nodup ∧
    exApp1 ∈ exDb.applications ∧
    exApp1.id = oidA ∧
    getF exApp1.doc "tuitionId" = some (Val.str oidT) ∧
    exTuition ∈ exDb.tuitions ∧
    exTuition.id = oidT ∧
    ((postPayments exTutor1 exPayBody 7 oidU exDb).1 =
       PostPaymentsRes.success ∧
     (postPayments exTutor1 exPayBody 7 oidU exDb).2.1.payments =
       exDb.payments ++ [⟨oidU, paymentDocOf exPayBody 7⟩] ∧
     getF (paymentDocOf exPayBody 7) "paymentStatus" =
       some (Val.str "paid") ∧
     getF (paymentDocOf exPayBody 7) "applicationId" =
       some (Val.str oidA) ∧
     getF (paymentDocOf exPayBody 7) "tuitionId" =
       some (Val.str oidT) ∧
     (postPayments exTutor1 exPayBody 7 oidU exDb).2.1.applications.map
         Rec.id = exDb.applications.map Rec.id ∧
     (∀ r ∈ (postPayments exTutor1 exPayBody 7 oidU
         exDb).2.1.applications,
       getF r.doc "tuitionId" = some (Val.str oidT) →
       getF r.doc "status" =
         some (Val.str (if r.id = oidA then "accepted"
           else "rejected"))) ∧
     (∃ r ∈ (postPayments exTutor1 exPayBody 7 oidU
         exDb).2.1.applications,
       r.id = oidA ∧ getF r.doc "tuitionId" = some (Val.str oidT)) ∧
     ((postPayments exTutor1 exPayBody 7 oidU
         exDb).2.1.applications.filter
       (fun r => decide (getF r.doc "tuitionId" = some (Val.str oidT) ∧
         getF r.doc "status" = some (Val.str "accepted")))).length = 1 ∧
     ((postPayments exTutor1 exPayBody 7 oidU
         exDb).2.1.applications.filter
       (fun r => decide (getF r.doc "tuitionId" = some (Val.str oidT) ∧
         getF r.doc "status" = some (Val.str "rejected")))).length + 1 =
       (exDb.applications.filter (fun r =>
         decide (getF r.doc "tuitionId" =
           some (Val.str oidT)))).length ∧
     (∀ r ∈ (postPayments exTutor1 exPayBody 7 oidU exDb).2.1.tuitions,
       r.id = oidT → getF r.doc "status" = some (Val.str "confirmed")) ∧
     ∃ r ∈ (postPayments exTutor1 exPayBody 7 oidU exDb).2.1.tuitions,
       r.id = oidT) :=
  ⟨by decide, by decide, by decide, by decide, by decide, by decide,
   by decide, by decide, by decide, by decide, by decide,
   hiring_workflow_exclusive_accept exTutor1 exPayBody 7 oidU exDb oidA
     oidT exApp1 exTuition (by decide) (by decide) (by decide) (by decide)
     (by decide) (by decide) (by decide) (by decide) (by decide)
     (by decide) (by decide)⟩
